import Mathlib

/-!
# Verification of the quiz_game core (scoring, questions, persistence)

Shallow embedding of the Python sources `scoring.py` and `questions.py`:
pure functions become Lean functions, the mutable `ScoreTracker` object
becomes explicit state passing, the on-disk stores become explicit
list-valued state (with `Option` marking a missing file), and the
`FileNotFoundError` / `TypeError` exits of `load_questions` become
`Except`.
-/

namespace QuizGame

/-! ## scoring.py : ScoreTracker -/

/-- `DIFFICULTY_MULTIPLIER = {"easy": 1, "medium": 2, "hard": 3}` with
`.get(difficulty, 1)` defaulting to 1 for an unrecognized key. -/
def DIFFICULTY_MULTIPLIER (difficulty : String) : Nat :=
  if difficulty = "easy" then 1
  else if difficulty = "medium" then 2
  else if difficulty = "hard" then 3
  else 1

/-- The mutable fields of a `ScoreTracker` instance (scoring.py lines 16-21). -/
structure ScoreTracker where
  correct : Nat
  total : Nat
  points : Nat
  streak : Nat
  best_streak : Nat
deriving Repr, DecidableEq

/-- `ScoreTracker.__init__`: every field starts at 0. -/
def ScoreTracker.init : ScoreTracker :=
  { correct := 0, total := 0, points := 0, streak := 0, best_streak := 0 }

/-- The `details` dict returned by `ScoreTracker.record`. -/
structure RecordDetails where
  streak_bonus : Nat
  difficulty_bonus : Nat
  points_earned : Nat
deriving Repr, DecidableEq

/-- `ScoreTracker.record(is_correct, difficulty)` (scoring.py lines 23-48):
returns the updated tracker together with the `details` dict. -/
def ScoreTracker.record (t : ScoreTracker) (is_correct : Bool)
    (difficulty : String) : ScoreTracker × RecordDetails :=
  let t := { t with total := t.total + 1 }
  if is_correct then
    let streak := t.streak + 1
    let best := if streak > t.best_streak then streak else t.best_streak
    let base := 10
    let diff_mult := DIFFICULTY_MULTIPLIER difficulty
    let diff_bonus := base * (diff_mult - 1)
    let streak_bonus := min (streak - 1) 5 * 5
    let earned := base + diff_bonus + streak_bonus
    ({ t with correct := t.correct + 1, streak := streak, best_streak := best,
              points := t.points + earned },
     { streak_bonus := streak_bonus, difficulty_bonus := diff_bonus,
       points_earned := earned })
  else
    ({ t with streak := 0 },
     { streak_bonus := 0, difficulty_bonus := 0, points_earned := 0 })

/-- Folding a whole session of `record` calls over a tracker. -/
def ScoreTracker.run (t : ScoreTracker) (ops : List (Bool × String)) :
    ScoreTracker :=
  ops.foldl (fun t op => (t.record op.1 op.2).1) t

/-- `ScoreTracker.percentage` (scoring.py lines 50-54), with the Python
float modelled as a rational. -/
def ScoreTracker.percentage (t : ScoreTracker) : Rat :=
  if t.total = 0 then 0 else ((t.correct : Rat) / (t.total : Rat)) * 100

/-- The state invariant of the tracker claimed by the spec. -/
def ScoreTracker.Inv (t : ScoreTracker) : Prop :=
  t.correct ≤ t.total ∧ t.streak ≤ t.best_streak

instance (t : ScoreTracker) : Decidable t.Inv := by
  unfold ScoreTracker.Inv; infer_instance

/-- Running a session while keeping the `details` dict of every call,
in call order. -/
def ScoreTracker.recordTrace (t : ScoreTracker) :
    List (Bool × String) → ScoreTracker × List RecordDetails
  | [] => (t, [])
  | op :: ops =>
    let s := t.record op.1 op.2
    let r := s.1.recordTrace ops
    (r.1, s.2 :: r.2)

/-! ## questions.py : Question bank -/

/-- The `Question` record (questions.py lines 10-19); `category` defaults
to `"General"`, `difficulty` to `"medium"` in `__init__`. -/
structure Question where
  text : String
  choices : List String
  answer : Int
  category : String
  difficulty : String
deriving Repr, DecidableEq

instance : Inhabited Question :=
  ⟨{ text := "", choices := [], answer := 0, category := "General",
     difficulty := "medium" }⟩

/-- `Question.check(choice_index)`. -/
def Question.check (q : Question) (choice_index : Int) : Bool :=
  choice_index == q.answer

/-- A raw JSON entry of the question bank: each known key is `none` when
absent, and `extra` lists the keys of the entry outside
`{text, choices, answer, category, difficulty}`. -/
structure RawQuestion where
  text : Option String
  choices : Option (List String)
  answer : Option Int
  category : Option String
  difficulty : Option String
  extra : List String
deriving Repr, DecidableEq

/-- Python truthiness of an optional string: `q.get("text")` is truthy
iff the key is present with a non-empty value. -/
def truthyStr : Option String → Bool
  | none => false
  | some s => s ≠ ""

/-- Python truthiness of an optional list: `q.get("choices")` is truthy
iff the key is present with a non-empty value. -/
def truthyList : Option (List String) → Bool
  | none => false
  | some l => l ≠ []

/-- `Question(**q)`: keyword construction raises `TypeError` when the
entry carries a keyword outside the five parameters; otherwise it fills
the defaults `category = "General"`, `difficulty = "medium"`. -/
def questionOfRaw (q : RawQuestion) : Except String Question :=
  if q.extra ≠ [] then
    .error "TypeError: unexpected keyword argument"
  else
    .ok { text := q.text.getD "", choices := q.choices.getD [],
          answer := q.answer.getD 0, category := q.category.getD "General",
          difficulty := q.difficulty.getD "medium" }

/-- `load_questions` (questions.py lines 29-45) over an already-parsed
`data["questions"]` list: entries failing the truthiness / key-presence
check or the `0 <= answer < len(choices)` range check are skipped;
surviving entries go through `Question(**q)`, whose `TypeError` aborts
the whole load. -/
def load_questions : List RawQuestion → Except String (List Question)
  | [] => .ok []
  | q :: rest =>
    if ¬(truthyStr q.text ∧ truthyList q.choices ∧ q.answer.isSome) then
      load_questions rest
    else if ¬(0 ≤ q.answer.getD 0 ∧ q.answer.getD 0 < (q.choices.getD []).length) then
      load_questions rest
    else
      match questionOfRaw q with
      | .error e => .error e
      | .ok parsed =>
        match load_questions rest with
        | .error e => .error e
        | .ok qs => .ok (parsed :: qs)

/-- `filter_questions` (questions.py lines 57-66): `if category:` keeps
the running list unchanged when the argument is `None` (or falsy, i.e.
the empty string), else filters by exact equality; likewise for
`difficulty`. -/
def filter_questions (questions : List Question)
    (category : Option String) (difficulty : Option String) : List Question :=
  let result := questions
  let result :=
    if truthyStr category then
      result.filter (fun q => q.category == category.getD "")
    else result
  let result :=
    if truthyStr difficulty then
      result.filter (fun q => q.difficulty == difficulty.getD "")
    else result
  result

/-- `pick_questions` (questions.py lines 69-72) returns
`random.sample(questions, min(count, len(questions)))`. The outcome of
`random.sample` is abstracted as the list `sel` of chosen positions;
`RandomSample` below says which position lists the sampler can produce. -/
def pick_questions (questions : List Question) (sel : List Nat) : List Question :=
  sel.map (fun i => questions.getD i default)

/-- `random.sample(seq, k)` over a sequence of length `n` yields `k`
distinct positions, each in range: the possible outcomes of the random
draw without replacement. -/
def RandomSample (n k : Nat) (sel : List Nat) : Prop :=
  sel.length = k ∧ sel.Nodup ∧ ∀ i ∈ sel, i < n

instance (n k : Nat) (sel : List Nat) : Decidable (RandomSample n k sel) := by
  unfold RandomSample; infer_instance

/-! ## scoring.py : persistence (leaderboard and history stores)

The backing file is modelled as `Option (List ScoreEntry)`: `none` is a
missing file, `some l` a file holding the records `l`. Reading and
writing the file are the identity on that state, so `load`/`save` below
carry the whole read-modify-write contract. -/

/-- A persisted score record (the dict built in `save_high_score` /
`save_game_history`); the Python float `percentage` is modelled as a
rational and `date` as the preformatted timestamp string. -/
structure ScoreEntry where
  name : String
  score : Nat
  total : Nat
  percentage : Rat
  points : Int
  best_streak : Nat
  category : String
  date : String
deriving Repr, DecidableEq

/-- Strict comparison of the Python sort keys
`(s.get("points", 0), s["percentage"])`: tuple comparison is
lexicographic. -/
def keyLt (a b : ScoreEntry) : Prop :=
  a.points < b.points ∨ (a.points = b.points ∧ a.percentage < b.percentage)

/-- Non-strict lexicographic comparison of the same sort keys. -/
def keyLe (a b : ScoreEntry) : Prop :=
  a.points < b.points ∨ (a.points = b.points ∧ a.percentage ≤ b.percentage)

instance (a b : ScoreEntry) : Decidable (keyLt a b) := by
  unfold keyLt; infer_instance

instance (a b : ScoreEntry) : Decidable (keyLe a b) := by
  unfold keyLe; infer_instance

/-- Stable insertion into a descending-sorted list: `x` goes in front of
the first element whose key is not above `x`'s (so among equal keys the
earlier element stays earlier). -/
def insertDesc (x : ScoreEntry) : List ScoreEntry → List ScoreEntry
  | [] => [x]
  | y :: ys => if keyLt x y then y :: insertDesc x ys else x :: y :: ys

/-- `scores.sort(key=lambda s: (points, percentage), reverse=True)`:
Python's sort is stable and `reverse=True` makes it descending; a stable
descending insertion sort computes the same list. -/
def sortDesc : List ScoreEntry → List ScoreEntry
  | [] => []
  | x :: xs => insertDesc x (sortDesc xs)

/-- `load_high_scores` (scoring.py lines 57-62): a missing file is an
empty list. -/
def load_high_scores (file : Option (List ScoreEntry)) : List ScoreEntry :=
  file.getD []

/-- `save_high_score` (scoring.py lines 65-84): read the store, append
the new entry, sort descending by `(points, percentage)`, keep the top
10, and rewrite the whole store. The dict literal built at lines 69-78
(with its timestamp and 1-decimal percentage rounding) is the given
`entry`. -/
def save_high_score (file : Option (List ScoreEntry)) (entry : ScoreEntry) :
    Option (List ScoreEntry) :=
  some ((sortDesc (load_high_scores file ++ [entry])).take 10)

/-- `get_top_scores(n)` (scoring.py lines 87-89): `load_high_scores()[:n]`. -/
def get_top_scores (file : Option (List ScoreEntry)) (n : Nat) : List ScoreEntry :=
  (load_high_scores file).take n

/-- `load_game_history` (scoring.py lines 111-116): a missing file is an
empty list. -/
def load_game_history (file : Option (List ScoreEntry)) : List ScoreEntry :=
  file.getD []

/-- `save_game_history` (scoring.py lines 92-108): read the log, append
the new entry, rewrite the whole log. -/
def save_game_history (file : Option (List ScoreEntry)) (entry : ScoreEntry) :
    Option (List ScoreEntry) :=
  some (load_game_history file ++ [entry])

lemma record_inv {t : ScoreTracker} (h : t.Inv) (b : Bool) (d : String) :
    (t.record b d).1.Inv := by
  obtain ⟨h1, h2⟩ := h
  cases b <;> simp only [ScoreTracker.record, ScoreTracker.Inv] <;> split_ifs <;>
    constructor <;> simp <;> omega

lemma record_best_streak_mono (t : ScoreTracker) (b : Bool) (d : String) :
    t.best_streak ≤ (t.record b d).1.best_streak := by
  cases b <;> simp only [ScoreTracker.record] <;> split_ifs <;> simp <;> omega

lemma run_best_streak_mono (t : ScoreTracker) (ops : List (Bool × String)) :
    t.best_streak ≤ (t.run ops).best_streak := by
  induction ops generalizing t with
  | nil => exact le_rfl
  | cons op ops ih =>
    calc t.best_streak ≤ (t.record op.1 op.2).1.best_streak :=
          record_best_streak_mono t op.1 op.2
      _ ≤ ((t.record op.1 op.2).1.run ops).best_streak := ih _
      _ = (t.run (op :: ops)).best_streak := rfl

lemma run_inv {t : ScoreTracker} (h : t.Inv) (ops : List (Bool × String)) :
    (t.run ops).Inv := by
  induction ops generalizing t with
  | nil => exact h
  | cons op ops ih => exact ih (record_inv h op.1 op.2)

lemma not_keyLt_iff {a b : ScoreEntry} : ¬ keyLt a b ↔ keyLe b a := by
  unfold keyLt keyLe
  push_neg
  constructor
  · rintro ⟨h1, h2⟩
    rcases lt_or_eq_of_le h1 with h | h
    · exact Or.inl h
    · exact Or.inr ⟨h, h2 h.symm⟩
  · rintro (h | ⟨h1, h2⟩)
    · exact ⟨le_of_lt h, fun he => by omega⟩
    · exact ⟨le_of_eq h1, fun _ => h2⟩

lemma keyLe_of_keyLt {a b : ScoreEntry} (h : keyLt a b) : keyLe a b := by
  unfold keyLt keyLe at *
  rcases h with h | ⟨h1, h2⟩
  · exact Or.inl h
  · exact Or.inr ⟨h1, le_of_lt h2⟩

lemma keyLe_trans {a b c : ScoreEntry} (hab : keyLe a b) (hbc : keyLe b c) :
    keyLe a c := by
  unfold keyLe at *
  rcases hab with h | ⟨h1, h2⟩ <;> rcases hbc with h' | ⟨h1', h2'⟩
  · exact Or.inl (lt_trans h h')
  · exact Or.inl (h1' ▸ h)
  · exact Or.inl (h1 ▸ h')
  · exact Or.inr ⟨h1.trans h1', le_trans h2 h2'⟩

lemma insertDesc_perm (x : ScoreEntry) (l : List ScoreEntry) :
    List.Perm (insertDesc x l) (x :: l) := by
  induction l with
  | nil => rfl
  | cons y ys ih =>
    unfold insertDesc
    split_ifs with h
    · exact (ih.cons y).trans (List.Perm.swap x y ys)
    · rfl

lemma sortDesc_perm (l : List ScoreEntry) : List.Perm (sortDesc l) l := by
  induction l with
  | nil => rfl
  | cons x xs ih => exact (insertDesc_perm x (sortDesc xs)).trans (ih.cons x)

lemma mem_insertDesc {a x : ScoreEntry} {l : List ScoreEntry} :
    a ∈ insertDesc x l ↔ a = x ∨ a ∈ l := by
  rw [(insertDesc_perm x l).mem_iff]; simp

lemma insertDesc_sorted {x : ScoreEntry} {l : List ScoreEntry}
    (h : List.Pairwise (fun a b => keyLe b a) l) :
    List.Pairwise (fun a b => keyLe b a) (insertDesc x l) := by
  induction l with
  | nil => simp [insertDesc]
  | cons y ys ih =>
    unfold insertDesc
    rcases List.pairwise_cons.mp h with ⟨hy, hys⟩
    split_ifs with hxy
    · refine List.pairwise_cons.mpr ⟨?_, ih hys⟩
      intro z hz
      rcases mem_insertDesc.mp hz with rfl | hz
      · exact keyLe_of_keyLt hxy
      · exact hy z hz
    · refine List.pairwise_cons.mpr ⟨?_, h⟩
      intro z hz
      rcases List.mem_cons.mp hz with rfl | hz
      · exact not_keyLt_iff.mp hxy
      · exact keyLe_trans (hy z hz) (not_keyLt_iff.mp hxy)

lemma sortDesc_sorted (l : List ScoreEntry) :
    List.Pairwise (fun a b => keyLe b a) (sortDesc l) := by
  induction l with
  | nil => simp [sortDesc]
  | cons x xs ih => exact insertDesc_sorted ih

lemma load_foldl_history (file : Option (List ScoreEntry))
    (es : List ScoreEntry) :
    load_game_history (es.foldl save_game_history file) =
      load_game_history file ++ es := by
  induction es generalizing file with
  | nil => simp
  | cons e es ih =>
    rw [List.foldl_cons, ih]
    simp [save_game_history, load_game_history]

lemma map_getD_range (qs : List Question) :
    (List.range qs.length).map (fun i => qs.getD i default) = qs := by
  induction qs with
  | nil => rfl
  | cons q qs ih =>
    rw [List.length_cons, List.range_succ_eq_map, List.map_cons, List.map_map]
    simp only [Function.comp_def, List.getD_cons_zero, List.getD_cons_succ]
    rw [ih]

lemma subperm_map {α β : Type _} (f : α → β) {l₁ l₂ : List α}
    (h : List.Subperm l₁ l₂) : List.Subperm (l₁.map f) (l₂.map f) := by
  obtain ⟨l, hp, hs⟩ := h
  exact ⟨l.map f, hp.map f, hs.map f⟩

lemma subperm_nodup {α : Type _} {l₁ l₂ : List α} (h : List.Subperm l₁ l₂)
    (hd : l₂.Nodup) : l₁.Nodup := by
  obtain ⟨l, hp, hs⟩ := h
  exact hp.nodup_iff.mp (hd.sublist hs)

lemma pick_subperm {qs : List Question} {sel : List Nat}
    (hnd : sel.Nodup) (hin : ∀ i ∈ sel, i < qs.length) :
    List.Subperm (pick_questions qs sel) qs := by
  have h1 : List.Subperm sel (List.range qs.length) :=
    hnd.subperm (fun i hi => List.mem_range.mpr (hin i hi))
  have h2 := subperm_map (fun i => qs.getD i default) h1
  rwa [map_getD_range] at h2

lemma load_ok_invariant : ∀ (raws : List RawQuestion) (qs : List Question),
    load_questions raws = .ok qs →
    ∀ q ∈ qs, 0 ≤ q.answer ∧ q.answer < (q.choices.length : Int) := by
  intro raws
  induction raws with
  | nil =>
    intro qs h q hq
    simp only [load_questions, Except.ok.injEq] at h
    subst h
    cases hq
  | cons r rest ih =>
    intro qs h q hq
    simp only [load_questions] at h
    by_cases h1 : truthyStr r.text = true ∧ truthyList r.choices = true ∧
        r.answer.isSome = true
    · rw [if_neg (not_not_intro h1)] at h
      by_cases h2 : 0 ≤ r.answer.getD 0 ∧
          r.answer.getD 0 < ((r.choices.getD []).length : Int)
      · rw [if_neg (not_not_intro h2)] at h
        simp only [questionOfRaw] at h
        by_cases h3 : r.extra = []
        · rw [if_neg (not_not_intro h3)] at h
          cases hrest : load_questions rest with
          | error e =>
            rw [hrest] at h
            exact Except.noConfusion h
          | ok qs' =>
            rw [hrest] at h
            have h' := Except.ok.inj h
            subst h'
            rcases List.mem_cons.mp hq with rfl | hmem
            · exact h2
            · exact ih qs' hrest q hmem
        · rw [if_pos h3] at h
          exact Except.noConfusion h
      · rw [if_pos h2] at h
        exact ih qs h q hq
    · rw [if_pos h1] at h
      exact ih qs h q hq

/-- C1: a correct answer earns `base + difficultyBonus + streakBonus` points
with `base = 10`, `difficultyBonus = 10 * (multiplier - 1)` where the
multiplier table is `{easy:1, medium:2, hard:3}` defaulting to 1, and
`streakBonus = min(streak - 1, 5) * 5` from the post-increment streak; the
returned breakdown reports exactly those values, and five consecutive
correct "hard" answers on a fresh tracker earn streak bonuses
`0,5,10,15,20` and leave cumulative points `200`. -/
theorem claim_C1 :
    (∀ (t : ScoreTracker) (d : String),
      (t.record true d).2.difficulty_bonus = 10 * (DIFFICULTY_MULTIPLIER d - 1) ∧
      (t.record true d).2.streak_bonus = min (t.streak + 1 - 1) 5 * 5 ∧
      (t.record true d).2.points_earned =
        10 + (t.record true d).2.difficulty_bonus + (t.record true d).2.streak_bonus ∧
      (t.record true d).1.points = t.points + (t.record true d).2.points_earned ∧
      DIFFICULTY_MULTIPLIER "easy" = 1 ∧
      DIFFICULTY_MULTIPLIER "medium" = 2 ∧
      DIFFICULTY_MULTIPLIER "hard" = 3 ∧
      (d ≠ "easy" → d ≠ "medium" → d ≠ "hard" → DIFFICULTY_MULTIPLIER d = 1)) ∧
    ((ScoreTracker.init.recordTrace
        (List.replicate 5 (true, "hard"))).2.map RecordDetails.streak_bonus
        = [0, 5, 10, 15, 20] ∧
      (ScoreTracker.init.recordTrace
        (List.replicate 5 (true, "hard"))).2.map RecordDetails.difficulty_bonus
        = [20, 20, 20, 20, 20] ∧
      (ScoreTracker.init.recordTrace
        (List.replicate 5 (true, "hard"))).2.map RecordDetails.points_earned
        = [30, 35, 40, 45, 50] ∧
      (ScoreTracker.init.recordTrace
        (List.replicate 5 (true, "hard"))).1.points = 200) := by
  constructor
  · intro t d
    refine ⟨rfl, rfl, rfl, rfl, rfl, rfl, rfl, ?_⟩
    intro h1 h2 h3
    simp [DIFFICULTY_MULTIPLIER, h1, h2, h3]
  · exact ⟨by decide, by decide, by decide, by decide⟩

/-- C1 witness: the hypotheses of the unrecognized-difficulty clause
discharged at the concrete difficulty string `"weird"`. -/
theorem claim_C1_witness : DIFFICULTY_MULTIPLIER "weird" = 1 :=
  (claim_C1.1 ScoreTracker.init "weird").2.2.2.2.2.2.2
    (by decide) (by decide) (by decide)

/-- C2: starting from the fresh tracker, after every sequence of `record`
calls the invariants `correct ≤ total` and `streak ≤ best_streak` hold
(every prefix of a session is itself a sequence, so they hold after each
call; all fields are `Nat`, hence non-negative). -/
theorem claim_C2 : ∀ ops : List (Bool × String), (ScoreTracker.init.run ops).Inv :=
  fun ops => run_inv (by constructor <;> exact le_rfl) ops

/-- C3: a wrong answer increments `total`, zeroes `streak`, leaves
`correct`, `points` and `best_streak` unchanged, returns an all-zero
breakdown, and `best_streak` never decreases over any call or call
sequence. -/
theorem claim_C3 : ∀ (t : ScoreTracker) (d : String),
    (t.record false d).1.total = t.total + 1 ∧
    (t.record false d).1.streak = 0 ∧
    (t.record false d).1.correct = t.correct ∧
    (t.record false d).1.points = t.points ∧
    (t.record false d).1.best_streak = t.best_streak ∧
    (t.record false d).2 = ⟨0, 0, 0⟩ ∧
    (∀ (b : Bool) (d' : String), t.best_streak ≤ (t.record b d').1.best_streak) ∧
    (∀ ops : List (Bool × String), t.best_streak ≤ (t.run ops).best_streak) :=
  fun t d =>
    ⟨rfl, rfl, rfl, rfl, rfl, rfl,
     fun b d' => record_best_streak_mono t b d',
     fun ops => run_best_streak_mono t ops⟩

/-- C9: `percentage` is exactly `0` when `total = 0` and
`(correct / total) * 100` otherwise; the guard means no division by zero
ever occurs (checked by the cross-multiplied form). -/
theorem claim_C9 : ∀ t : ScoreTracker,
    (t.total = 0 → t.percentage = 0) ∧
    (t.total ≠ 0 → t.percentage = ((t.correct : Rat) / (t.total : Rat)) * 100) ∧
    (t.total ≠ 0 → t.percentage * (t.total : Rat) = (t.correct : Rat) * 100) := by
  intro t
  refine ⟨fun h => by simp [ScoreTracker.percentage, h], fun h => ?_, fun h => ?_⟩
  · simp [ScoreTracker.percentage, h]
  · have ht : ((t.total : Rat)) ≠ 0 := by exact_mod_cast h
    simp only [ScoreTracker.percentage, if_neg h]
    field_simp

/-- C9 witness: the zero-total branch at the fresh tracker and the
division branch at `correct = 1, total = 2`. -/
theorem claim_C9_witness :
    ScoreTracker.init.percentage = 0 ∧
    ({ correct := 1, total := 2, points := 0, streak := 0, best_streak := 0 :
        ScoreTracker }).percentage = ((1 : Rat) / (2 : Rat)) * 100 :=
  ⟨(claim_C9 ScoreTracker.init).1 rfl,
   (claim_C9 _).2.1 (by decide)⟩

/-- C4: `save_high_score` appends the entry to the stored list, re-sorts
descending by the `(points, percentage)` key, truncates to at most 10
records and rewrites the store; the rewritten store is a sorted prefix of
a permutation of `stored ++ [entry]`, has `min(len+1, 10)` records, every
record it drops has key ≤ every record it keeps, and `get_top_scores n`
is the first `n` stored records (fewer if fewer are stored). -/
theorem claim_C4 : ∀ (file : Option (List ScoreEntry)) (entry : ScoreEntry),
    load_high_scores (save_high_score file entry) =
      (sortDesc (load_high_scores file ++ [entry])).take 10 ∧
    (load_high_scores (save_high_score file entry)).length =
      min ((load_high_scores file).length + 1) 10 ∧
    List.Pairwise (fun a b => keyLe b a)
      (load_high_scores (save_high_score file entry)) ∧
    List.Perm (sortDesc (load_high_scores file ++ [entry]))
      (load_high_scores file ++ [entry]) ∧
    (∀ x ∈ (sortDesc (load_high_scores file ++ [entry])).drop 10,
      ∀ y ∈ load_high_scores (save_high_score file entry), keyLe x y) ∧
    (∀ n, get_top_scores file n = (load_high_scores file).take n ∧
      (get_top_scores file n).length = min n (load_high_scores file).length) := by
  intro file entry
  refine ⟨rfl, ?_, ?_, sortDesc_perm _, ?_,
    fun n => ⟨rfl, by simp [get_top_scores]⟩⟩
  · show ((sortDesc (load_high_scores file ++ [entry])).take 10).length = _
    rw [List.length_take, (sortDesc_perm _).length_eq, List.length_append]
    simp [Nat.min_comm]
  · show List.Pairwise (fun a b => keyLe b a)
      ((sortDesc (load_high_scores file ++ [entry])).take 10)
    exact (sortDesc_sorted _).sublist (List.take_sublist _ _)
  · intro x hx y hy
    have hp := sortDesc_sorted (load_high_scores file ++ [entry])
    rw [← List.take_append_drop 10
      (sortDesc (load_high_scores file ++ [entry]))] at hp
    exact (List.pairwise_append.mp hp).2.2 y hy x hx

/-- C4 witness: a store of ten equal-key records plus a strictly lower
new entry; the dropped eleventh record's key is ≤ the kept records'. -/
theorem claim_C4_witness :
    keyLe ⟨"n", 0, 1, 0, 0, 0, "c", "d"⟩ ⟨"n", 1, 1, 100, 10, 1, "c", "d"⟩ :=
  (claim_C4 (some (List.replicate 10 ⟨"n", 1, 1, 100, 10, 1, "c", "d"⟩))
      ⟨"n", 0, 1, 0, 0, 0, "c", "d"⟩).2.2.2.2.1
    ⟨"n", 0, 1, 0, 0, 0, "c", "d"⟩ (by decide)
    ⟨"n", 1, 1, 100, 10, 1, "c", "d"⟩ (by decide)

/-- C7: `save_game_history` appends the entry at the end of the log and
rewrites it whole, with no reordering and no truncation: appending `N`
entries to an empty (missing) history yields exactly those `N` entries in
insertion order, and writing then reading back preserves them. -/
theorem claim_C7 : ∀ (file : Option (List ScoreEntry)) (entry : ScoreEntry)
    (es : List ScoreEntry),
    load_game_history (save_game_history file entry) =
      load_game_history file ++ [entry] ∧
    load_game_history (es.foldl save_game_history none) = es ∧
    (load_game_history (es.foldl save_game_history none)).length = es.length := by
  intro file entry es
  refine ⟨rfl, ?_, ?_⟩
  · rw [load_foldl_history]
    rfl
  · rw [load_foldl_history]
    rfl

/-- C6: `pick_questions` with `count > len(pool)` returns exactly
`len(pool)` questions; in general any possible outcome of the random
sample has `min(count, len(pool))` elements, is a sub-permutation of the
pool (drawn without replacement: no duplicates beyond those in the pool),
and every picked question is in the pool. The pool is passed by value in
the embedding, matching `random.sample`'s non-mutating contract. -/
theorem claim_C6 : ∀ (questions : List Question) (count : Nat) (sel : List Nat),
    RandomSample questions.length (min count questions.length) sel →
    (pick_questions questions sel).length = min count questions.length ∧
    (questions.length < count →
      (pick_questions questions sel).length = questions.length) ∧
    List.Subperm (pick_questions questions sel) questions ∧
    (∀ q ∈ pick_questions questions sel, q ∈ questions) ∧
    (questions.Nodup → (pick_questions questions sel).Nodup) := by
  rintro qs count sel ⟨hlen, hnd, hin⟩
  have hsp := pick_subperm hnd hin
  refine ⟨?_, ?_, hsp, fun q hq => hsp.subset hq, fun h => subperm_nodup hsp h⟩
  · simp [pick_questions, hlen]
  · intro h
    simp [pick_questions, hlen]
    omega

/-- C6 witness: a concrete sample `[1, 0]` of a two-question pool with
requested count 5: the result is clamped to 2 elements. -/
theorem claim_C6_witness :
    RandomSample ([⟨"q1", ["a", "b"], 0, "General", "easy"⟩,
      ⟨"q2", ["c", "d"], 1, "General", "hard"⟩] : List Question).length
      (min 5 2) [1, 0] ∧
    (pick_questions [⟨"q1", ["a", "b"], 0, "General", "easy"⟩,
      ⟨"q2", ["c", "d"], 1, "General", "hard"⟩] [1, 0]).length = min 5 2 :=
  ⟨by decide,
   (claim_C6 [⟨"q1", ["a", "b"], 0, "General", "easy"⟩,
      ⟨"q2", ["c", "d"], 1, "General", "hard"⟩] 5 [1, 0] (by decide)).1⟩

/-- C8 as stated is false: `filter_questions` treats a present empty
category string as absent (`if category:` is Python truthiness, not a
None check), so with `category = ""` it passes a question whose category
is `"Science"` through instead of returning the exact-match subsequence
(which is empty). -/
theorem claim_C8_counterexample :
    filter_questions [⟨"t", ["a", "b"], 0, "Science", "medium"⟩]
      (some "") none = [⟨"t", ["a", "b"], 0, "Science", "medium"⟩] ∧
    List.filter (fun q => q.category == "")
      [(⟨"t", ["a", "b"], 0, "Science", "medium"⟩ : Question)] = [] ∧
    filter_questions [⟨"t", ["a", "b"], 0, "Science", "medium"⟩]
      (some "") none ≠
      List.filter (fun q => q.category == "")
        [(⟨"t", ["a", "b"], 0, "Science", "medium"⟩ : Question)] :=
  ⟨rfl, rfl, by decide⟩

/-- C8 amended: `filter_questions` with both arguments absent returns the
list unchanged; a present **non-empty** category and/or difficulty
selects exactly the subsequence matching by string equality (an empty
string is treated as absent); the result is always a subsequence of the
input, and the input is never mutated (the embedding is pure). -/
theorem claim_C8 : ∀ (qs : List Question) (c d : String),
    filter_questions qs none none = qs ∧
    (c ≠ "" → filter_questions qs (some c) none =
      qs.filter (fun q => q.category == c)) ∧
    (d ≠ "" → filter_questions qs none (some d) =
      qs.filter (fun q => q.difficulty == d)) ∧
    (c ≠ "" → d ≠ "" → filter_questions qs (some c) (some d) =
      (qs.filter (fun q => q.category == c)).filter
        (fun q => q.difficulty == d)) ∧
    (∀ cat diff : Option String,
      List.Sublist (filter_questions qs cat diff) qs) := by
  intro qs c d
  refine ⟨rfl, fun hc => ?_, fun hd => ?_, fun hc hd => ?_, fun cat diff => ?_⟩
  · simp [filter_questions, truthyStr, hc]
  · simp [filter_questions, truthyStr, hd]
  · simp [filter_questions, truthyStr, hc, hd]
  · simp only [filter_questions]
    split_ifs
    · exact ((List.filter_sublist _).trans (List.filter_sublist _))
    · exact List.filter_sublist _
    · exact List.filter_sublist _
    · exact List.Sublist.refl qs

/-- C8 witness: the amended equations applied at a one-question list with
the concrete non-empty filters `"Science"` and `"medium"`. -/
theorem claim_C8_witness :
    filter_questions [⟨"t", ["a", "b"], 0, "Science", "medium"⟩]
      (some "Science") none =
      List.filter (fun q => q.category == "Science")
        [(⟨"t", ["a", "b"], 0, "Science", "medium"⟩ : Question)] ∧
    filter_questions [⟨"t", ["a", "b"], 0, "Science", "medium"⟩]
      (some "Science") (some "medium") =
      List.filter (fun q => q.difficulty == "medium")
        (List.filter (fun q => q.category == "Science")
          [(⟨"t", ["a", "b"], 0, "Science", "medium"⟩ : Question)]) :=
  ⟨(claim_C8 [⟨"t", ["a", "b"], 0, "Science", "medium"⟩]
      "Science" "medium").2.1 (by decide),
   (claim_C8 [⟨"t", ["a", "b"], 0, "Science", "medium"⟩]
      "Science" "medium").2.2.2.1 (by decide) (by decide)⟩

/-- C5 as stated is false in one conjunct: the load-time range check only
enforces `0 ≤ answer < len(choices)`, not `len(choices) ≥ 2`; an entry
with a single choice and `answer = 0` is loaded, not skipped. -/
theorem claim_C5_counterexample :
    load_questions [⟨some "x", some ["a"], some 0, none, none, []⟩] =
      .ok [⟨"x", ["a"], 0, "General", "medium"⟩] ∧
    ¬ 2 ≤ (⟨"x", ["a"], 0, "General", "medium"⟩ : Question).choices.length :=
  ⟨rfl, by decide⟩

/-- C5 amended: `load_questions` silently skips (does not error on) each
entry that fails the missing-field or out-of-range checks, and every
`Question` a successful load returns satisfies
`0 ≤ answer < len(choices)` — hence `len(choices) ≥ 1`, but not
necessarily `len(choices) ≥ 2`. -/
theorem claim_C5 : ∀ (raws : List RawQuestion) (qs : List Question)
    (bad : RawQuestion),
    (load_questions raws = .ok qs →
      ∀ q ∈ qs, 0 ≤ q.answer ∧ q.answer < (q.choices.length : Int) ∧
        1 ≤ q.choices.length) ∧
    ((¬(truthyStr bad.text = true ∧ truthyList bad.choices = true ∧
          bad.answer.isSome = true) ∨
      ¬(0 ≤ bad.answer.getD 0 ∧
          bad.answer.getD 0 < ((bad.choices.getD []).length : Int))) →
      load_questions (bad :: raws) = load_questions raws) := by
  intro raws qs bad
  constructor
  · intro h q hq
    obtain ⟨h1, h2⟩ := load_ok_invariant raws qs h q hq
    refine ⟨h1, h2, ?_⟩
    omega
  · intro h
    simp only [load_questions]
    by_cases hA : truthyStr bad.text = true ∧ truthyList bad.choices = true ∧
        bad.answer.isSome = true
    · rcases h with h | h
      · exact absurd hA h
      · rw [if_neg (not_not_intro hA), if_pos h]
    · rw [if_pos hA]

/-- C5 witness: the invariant clause at a concretely loaded bank, and the
skip clause at a concretely malformed (all fields missing) entry. -/
theorem claim_C5_witness :
    (0 ≤ (⟨"q", ["a", "b"], 1, "General", "medium"⟩ : Question).answer ∧
      (⟨"q", ["a", "b"], 1, "General", "medium"⟩ : Question).answer <
        (((⟨"q", ["a", "b"], 1, "General", "medium"⟩ : Question).choices.length :
          Int)) ∧
      1 ≤ (⟨"q", ["a", "b"], 1, "General", "medium"⟩ :
        Question).choices.length) ∧
    load_questions [⟨none, none, none, none, none, []⟩] = load_questions [] :=
  ⟨(claim_C5 [⟨some "q", some ["a", "b"], some 1, none, none, []⟩]
      [⟨"q", ["a", "b"], 1, "General", "medium"⟩]
      ⟨none, none, none, none, none, []⟩).1 rfl _ (by decide),
   (claim_C5 [] [] ⟨none, none, none, none, none, []⟩).2
      (Or.inl (by decide))⟩

/-- C10: a raw entry with valid `text`, `choices` and `answer` but one
extra key outside the five known parameters makes `load_questions` raise
(`Question(**q)` hits a `TypeError`) instead of loading or skipping the
entry; the same entry without the extra key loads fine. -/
theorem claim_C10 :
    load_questions [⟨some "q", some ["a", "b"], some 0, none, none,
      ["hint"]⟩] = .error "TypeError: unexpected keyword argument" ∧
    load_questions [⟨some "q", some ["a", "b"], some 0, none, none, []⟩] =
      .ok [⟨"q", ["a", "b"], 0, "General", "medium"⟩] :=
  ⟨rfl, rfl⟩

end QuizGame
